import Mathlib

/-!
# Verification of the epub_news extraction/orchestration pipeline

Shallow embedding of the core of the `epub_news` repository:

* `MediaSource.computeArticlesFromNewsList` (src/src/media_sources/media_source.ts,
  lines 91-137): the sequential fetch-and-trim loop over a news list.
* `LeMondeMediaSource.trimArticleForEpub` / `GamekultMediaSource.trimArticleForEpub`
  and the `createBookCoverFromArticle` implementations (media_source_le_monde.ts /
  media_source_gamekult.ts).
* `createMediaSource` (media_source_factory.ts): the ordered predicate dispatch.
* `EpubNews.getEpubDataFromArticles` (epub_news.ts).
* The run-scoped deduplication by identifier, modelled from the specification
  (the CLI orchestrator that performs it is not part of the provided sources).

External collaborators (the HTTPS client, the `node-html-parser` DOM engine, the
RSS parser) are modelled as explicit function parameters: the HTML page, once
noise-cleaned by the source's selector list and image pass, is observed only
through `querySelector`, which we abstract as `DomEngine.cleanedQuery`.

JavaScript truthiness of optional strings (`undefined` and `""` are falsy) is
modelled by `jsTruthy`.
-/

/-- JavaScript truthiness of an optional string: `undefined` (here `none`) and
the empty string are falsy, every other string is truthy. -/
def jsTruthy : Option String → Bool
  | none => false
  | some s => s ≠ ""

/-- One syndication item as consumed by the pipeline (`Parser.Item` plus the
`media:content` custom field).  `mediaContent = none` models an item on which
the JavaScript access `item["media:content"]["$"]` would throw a `TypeError`
(the `media:content` field, or its attribute record, is absent);
`mediaContent = some u` models a present attribute record whose `url`
attribute is `u` (`u = none` when the attribute itself is absent). -/
structure Item where
  title : Option String
  link : Option String
  creator : Option String
  guid : Option String
  mediaContent : Option (Option String)
deriving Repr, DecidableEq

/-- `ArticlesFetchingResult` (src/src/media_sources/media_source.ts, lines 12-17):
one record per attempted item. -/
structure ArticlesFetchingResult where
  title : String
  link : String
  success : Bool
  error : Option String
deriving Repr, DecidableEq

/-- `EpubContentOptions` as pushed by `computeArticlesFromNewsList`: title,
trimmed body, optional author (`news.creator`). -/
structure EpubArticle where
  title : String
  data : String
  author : Option String
deriving Repr, DecidableEq

/-- `ComputeArticlesResult` (media_source.ts, lines 20-23). -/
structure ComputeArticlesResult where
  epubContent : List EpubArticle
  results : List ArticlesFetchingResult
deriving Repr, DecidableEq

/-- The mutable per-instance state of a `MediaSource`: `_feedTitle` and
`_cover`, both `undefined` after the constructor runs. -/
structure SourceState where
  feedTitle : Option String
  cover : Option String
deriving Repr, DecidableEq

/-- The constructor of `MediaSource` leaves `_feedTitle` and `_cover` unset. -/
def MediaSource.initState : SourceState := ⟨none, none⟩

/-- The behaviour of an abstract `MediaSource` as used by
`computeArticlesFromNewsList`: `fetch` models `retrieveArticle` (its promise
resolves with the page, or rejects with a transport failure, modelled by
`Except.error`), and `trim` models the abstract `trimArticleForEpub` method
(returning the body, or the stringified thrown error, and possibly mutating
the instance state, as the concrete implementations mutate `_cover`). -/
structure MediaImpl where
  fetch : String → Except String String
  trim : SourceState → Item → String → Except String String × SourceState

/-- The guard of the per-item branch of `computeArticlesFromNewsList`
(media_source.ts line 98): `news.link && news.title` is truthy. -/
def shouldProcess (n : Item) : Bool :=
  jsTruthy n.link && jsTruthy n.title

/-- The failure record pushed in the `catch` branch of
`computeArticlesFromNewsList` (media_source.ts, lines 125-130). -/
def failureOutcome (n : Item) (e : String) : ArticlesFetchingResult :=
  ⟨n.title.getD "", n.link.getD "", false, some e⟩

/-- The success record pushed at media_source.ts line 112. -/
def successOutcome (n : Item) : ArticlesFetchingResult :=
  ⟨n.title.getD "", n.link.getD "", true, none⟩

/-- Shallow embedding of `MediaSource.computeArticlesFromNewsList`
(media_source.ts, lines 91-137).  For each item, if `news.link && news.title`
is truthy the article is fetched (`await this.retrieveArticle(news.link)` —
note that this `await` stands *outside* the `try` block, so a rejected fetch
promise propagates and the loop never resumes); then `trimArticleForEpub` is
attempted inside `try`: on success the article and a success record are
pushed, on any thrown error a failure record carrying the stringified error
is pushed and the loop continues.  Items failing the truthiness test are
skipped with no record.  The spinner/console statements are pure I/O and are
not modelled. -/
def computeArticlesFromNewsList (impl : MediaImpl) :
    SourceState → List Item → Except String (ComputeArticlesResult × SourceState)
  | st, [] => .ok (⟨[], []⟩, st)
  | st, news :: rest =>
    if shouldProcess news then
      match impl.fetch (news.link.getD "") with
      | .error e => .error e
      | .ok article =>
        match impl.trim st news article with
        | (.ok trimmed, st1) =>
          match computeArticlesFromNewsList impl st1 rest with
          | .error e => .error e
          | .ok (r, st2) =>
            .ok (⟨⟨news.title.getD "", trimmed, news.creator⟩ :: r.epubContent,
                  successOutcome news :: r.results⟩, st2)
        | (.error e, st1) =>
          match computeArticlesFromNewsList impl st1 rest with
          | .error e2 => .error e2
          | .ok (r, st2) =>
            .ok (⟨r.epubContent, failureOutcome news e :: r.results⟩, st2)
    else computeArticlesFromNewsList impl st rest

/-! ## The DOM engine abstraction

`node-html-parser` is an external collaborator.  Each `trimArticleForEpub`
implementation parses the raw page, removes its source-specific noise-node
list, runs its image pass, and then queries candidate content containers on
the resulting root.  We observe that cleaned document only through
`querySelector`, abstracted here: `cleanedQuery article selector` is the
string of the first node matching `selector` in the noise-cleaned document of
`article`, or `none` when no node matches. -/
structure DomEngine where
  cleanedQuery : String → String → Option String

/-- JavaScript `s.startsWith(pre)`, computed on the character lists. -/
def jsStartsWith (s pre : String) : Bool :=
  pre.data.isPrefixOf s.data

/-- Stringification of `new TrimArticleError("is a live stream, skip")`. -/
def liveStreamError : String := "Error: is a live stream, skip"

/-- Stringification of `new TrimArticleError("empty, skip")`. -/
def emptyError : String := "Error: empty, skip"

/-- Stringification of the `TypeError` thrown by the JavaScript access
`newsFeed["media:content"]["$"]["url"]` when `media:content` (or its
attribute record) is absent. -/
def typeErrorUndefined : String := "TypeError: Cannot read properties of undefined"

/-- `DEFAUT_FEED_IMAGE_SIZE` (media_source_le_monde.ts line 24). -/
def DEFAUT_FEED_IMAGE_SIZE : String := "644/322"

/-- `EXPECTED_COVER_IMAGE_SIZE` (media_source_le_monde.ts line 25). -/
def EXPECTED_COVER_IMAGE_SIZE : String := "1410/2250"

/-- When `pat` is a prefix of `s`, the remaining characters of `s`. -/
def dropCharPrefix : List Char → List Char → Option (List Char)
  | [], s => some s
  | _ :: _, [] => none
  | p :: ps, c :: cs => if p = c then dropCharPrefix ps cs else none

/-- The characters before and after the first occurrence of `pat` in the
list, or `none` when `pat` does not occur. -/
def firstOccSplit (pat : List Char) : List Char → Option (List Char × List Char)
  | [] =>
    match dropCharPrefix pat [] with
    | some rest => some ([], rest)
    | none => none
  | c :: cs =>
    match dropCharPrefix pat (c :: cs) with
    | some rest => some ([], rest)
    | none =>
      match firstOccSplit pat cs with
      | some p => some (c :: p.1, p.2)
      | none => none

/-- JavaScript `s.indexOf(pat) >= 0`: the pattern occurs in `s`. -/
def substrOccurs (s pat : String) : Bool :=
  (firstOccSplit pat.data s.data).isSome

/-- JavaScript `String.prototype.replace` with a string pattern: replace the
first occurrence only. -/
def replaceFirstOcc (s pat sub : String) : String :=
  match firstOccSplit pat.data s.data with
  | none => s
  | some p => String.mk p.1 ++ sub ++ String.mk p.2

/-- The size-token upgrade of media_source_le_monde.ts, lines 124-126: when
the cover url contains `644/322`, its first occurrence is replaced by
`1410/2250`. -/
def leMondeCoverRewrite (u : String) : String :=
  if substrOccurs u DEFAUT_FEED_IMAGE_SIZE then
    replaceFirstOcc u DEFAUT_FEED_IMAGE_SIZE EXPECTED_COVER_IMAGE_SIZE
  else u

/-- `LeMondeMediaSource.createBookCoverFromArticle`
(media_source_le_monde.ts, lines 118-128), acting on the `_cover` field: if
`_cover` is still falsy and the item's `media:content` url attribute is
truthy, set the cover to it, upgrading the first occurrence of the
`644/322` size token to `1410/2250`; accessing the attribute of an item
without `media:content` throws. -/
def LeMondeMediaSource.createBookCoverFromArticle (cover : Option String)
    (newsFeed : Item) : Except Unit (Option String) :=
  if jsTruthy cover then .ok cover
  else
    match newsFeed.mediaContent with
    | none => .error ()
    | some url =>
      if jsTruthy url then .ok (some (leMondeCoverRewrite (url.getD "")))
      else .ok cover

/-- `GamekultMediaSource.createBookCoverFromArticle`
(media_source_gamekult.ts, lines 267-272): same first-wins rule, without any
size-token rewrite. -/
def GamekultMediaSource.createBookCoverFromArticle (cover : Option String)
    (newsFeed : Item) : Except Unit (Option String) :=
  if jsTruthy cover then .ok cover
  else
    match newsFeed.mediaContent with
    | none => .error ()
    | some url =>
      if jsTruthy url then .ok (some (url.getD ""))
      else .ok cover

/-- `LeMondeMediaSource.trimArticleForEpub` (media_source_le_monde.ts,
lines 73-110): fail fast on a live-coverage title, then derive the cover,
then return the first of the two candidate content containers matching the
noise-cleaned document, failing with the `Empty` category when neither
matches. -/
def LeMondeMediaSource.trimArticleForEpub (eng : DomEngine) (st : SourceState)
    (newsFeed : Item) (article : String) : Except String String × SourceState :=
  if jsTruthy newsFeed.title && jsStartsWith (newsFeed.title.getD "") "En direct" then
    (.error liveStreamError, st)
  else
    match LeMondeMediaSource.createBookCoverFromArticle st.cover newsFeed with
    | .error _ => (.error typeErrorUndefined, st)
    | .ok cover1 =>
      let st1 : SourceState := { st with cover := cover1 }
      match eng.cleanedQuery article ".zone.zone--article" with
      | some dom => (.ok dom, st1)
      | none =>
        match eng.cleanedQuery article ".article--longform.article--content" with
        | some dom => (.ok dom, st1)
        | none => (.error emptyError, st1)

/-- JavaScript `String.prototype.replaceAll` with a non-empty string
pattern, on character lists; `fuel` bounds the number of scanning steps (one
character, at least, is consumed per step) so that the recursion is
structural. -/
def replaceAllFuel (pat sub : List Char) : Nat → List Char → List Char
  | 0, s => s
  | _ + 1, [] => []
  | fuel + 1, c :: cs =>
    match dropCharPrefix pat (c :: cs) with
    | some rest => sub ++ replaceAllFuel pat sub fuel rest
    | none => c :: replaceAllFuel pat sub fuel cs

/-- `replaceAll('src="//cdn.gamekult.com', 'src="https://cdn.gamekult.com')`
applied to the selected container string (media_source_gamekult.ts,
lines 253 and 256). -/
def gamekultCdnSchemeFix (s : String) : String :=
  String.mk (replaceAllFuel "src=\"//cdn.gamekult.com".data
    "src=\"https://cdn.gamekult.com".data s.data.length s.data)

/-- `GamekultMediaSource.trimArticleForEpub` (media_source_gamekult.ts,
lines 222-259): no live-stream guard; derive the cover, then return the
first matching candidate container (review article, then regular news) with
the protocol-relative CDN urls rewritten to explicit https, failing with the
`Empty` category when neither matches. -/
def GamekultMediaSource.trimArticleForEpub (eng : DomEngine) (st : SourceState)
    (newsFeed : Item) (article : String) : Except String String × SourceState :=
  match GamekultMediaSource.createBookCoverFromArticle st.cover newsFeed with
  | .error _ => (.error typeErrorUndefined, st)
  | .ok cover1 =>
    let st1 : SourceState := { st with cover := cover1 }
    match eng.cleanedQuery article ".ed__review__article" with
    | some dom => (.ok (gamekultCdnSchemeFix dom), st1)
    | none =>
      match eng.cleanedQuery article "article.js-start-progression-bar" with
      | some dom => (.ok (gamekultCdnSchemeFix dom), st1)
      | none => (.error emptyError, st1)

/-! ## Strategy resolution (media_source_factory.ts) -/

/-- Lower-case ascii letter, the `a-z` part of the character classes of
`RSS_MATCHING_REGEX`. -/
def asciiLower (c : Char) : Bool := 'a' ≤ c && c ≤ 'z'

/-- The character class `[a-z/_-]` of `RSS_MATCHING_REGEX`. -/
def rssClassA (c : Char) : Bool := asciiLower c || c = '/' || c = '_' || c = '-'

/-- The character class `[a-z/_]` of `RSS_MATCHING_REGEX`. -/
def rssClassB (c : Char) : Bool := asciiLower c || c = '/' || c = '_'

/-- The suffix `.xml$` of `RSS_MATCHING_REGEX`: one arbitrary character, then
`xml`, at the end of the string. -/
def rssMatchDotXmlEnd : List Char → Bool
  | [_, 'x', 'm', 'l'] => true
  | _ => false

/-- `[a-z/_]*(.xml$)` of `RSS_MATCHING_REGEX`, with backtracking. -/
def rssMatchAfterRss : List Char → Bool
  | [] => false
  | c :: rest => rssMatchDotXmlEnd (c :: rest) || (rssClassB c && rssMatchAfterRss rest)

/-- `(rss)+[a-z/_]*(.xml$)` of `RSS_MATCHING_REGEX`, with backtracking. -/
def rssMatchRssPlus : List Char → Bool
  | 'r' :: 's' :: 's' :: rest => rssMatchAfterRss rest || rssMatchRssPlus rest
  | _ => false

/-- `[a-z/_-]*(rss)+[a-z/_]*(.xml$)` of `RSS_MATCHING_REGEX`, with
backtracking. -/
def rssMatchMiddle : List Char → Bool
  | [] => false
  | c :: rest => rssMatchRssPlus (c :: rest) || (rssClassA c && rssMatchMiddle rest)

/-- The anchored prefix `^https://www.lemonde.fr/` of `RSS_MATCHING_REGEX`
(the unescaped dots match any single character); returns the remaining
characters on a match. -/
def rssStripLeMondePrefix : List Char → Option (List Char)
  | 'h' :: 't' :: 't' :: 'p' :: 's' :: ':' :: '/' :: '/' :: 'w' :: 'w' :: 'w' :: _ ::
    'l' :: 'e' :: 'm' :: 'o' :: 'n' :: 'd' :: 'e' :: _ :: 'f' :: 'r' :: '/' :: rest => some rest
  | _ => none

/-- `LeMondeMediaSource.isHandlingRssFeed` (media_source_le_monde.ts,
lines 51-53): `RSS_MATCHING_REGEX.test(rssFeedUrl)` for the pattern
`(^https://www.lemonde.fr/)\x7b1\x7d[a-z/_-]*(rss)+[a-z/_]*(.xml$)\x7b1\x7d`. -/
def LeMondeMediaSource.isHandlingRssFeed (rssFeedUrl : String) : Bool :=
  match rssStripLeMondePrefix rssFeedUrl.data with
  | some rest => rssMatchMiddle rest
  | none => false

/-- `GAMEKULT_FEED_URL` (media_source_gamekult.ts line 171). -/
def GAMEKULT_FEED_URL : String := "https://www.gamekult.com/feed.xml"

/-- `GamekultMediaSource.isHandlingRssFeed` (media_source_gamekult.ts,
lines 210-212): exact equality with the Gamekult feed url. -/
def GamekultMediaSource.isHandlingRssFeed (rssFeedUrl : String) : Bool :=
  rssFeedUrl = GAMEKULT_FEED_URL

/-- The two registered strategies. -/
inductive MediaKind where
  | leMonde
  | gamekult
deriving DecidableEq, Repr

/-- `createMediaSource` (media_source_factory.ts, lines 13-23): try
Le Monde's predicate first, then Gamekult's; return `null` (here `none`)
when neither matches. -/
def createMediaSource (rssFeedUrl : String) : Option MediaKind :=
  if LeMondeMediaSource.isHandlingRssFeed rssFeedUrl then some .leMonde
  else if GamekultMediaSource.isHandlingRssFeed rssFeedUrl then some .gamekult
  else none

/-! ## Custom css getters and `EpubNews.getEpubDataFromArticles` -/

/-- The css text returned by `LeMondeMediaSource.customCss`
(media_source_le_monde.ts, lines 133-163). -/
def leMondeCssText : String :=
  "\n.zone--article img, .article--content img \x7b\n  min-width: 80%;\n  padding: 8px 10%;\n\x7d\n.zone--article figcaption, .article--content figcaption \x7b\n  opacity: 0.75;\n  font-style: italic;\n  font-size: 80%;\n  padding: 0 10%;\n  text-align: center;\n  padding: 0;\n\x7d\n\n.breadcrumb \x7b\n  list-style-type: none;\n  padding: 0;\n  margin: 0;\n\x7d\n.breadcrumb li \x7b\n  display: inline\n  margin: 0;\n  padding: 0;\n\x7d\n.breadcrumb li:before \x7b\n  content: \"/\";\n  padding: 0 8px;\n\x7d\n"

/-- The css text returned by `GamekultMediaSource.customCss`
(media_source_gamekult.ts, lines 277-293). -/
def gamekultCssText : String :=
  "\n img \x7b\n  display: block;\n  min-width: 100%;\n  padding: 8px 0;\n\x7d\n\nfigcaption \x7b\n  padding: 0;\n  opacity: 0.75;\n  font-style: italic;\n  font-size: 80%;\n  text-align: center;\n\x7d\n"

/-- `customCss` getter of each concrete source (the base class returns
`undefined`). -/
def customCssOf : MediaKind → Option String
  | .leMonde => some leMondeCssText
  | .gamekult => some gamekultCssText

/-- The concrete `MediaImpl` of each strategy: the shared `retrieveArticle`
fetch (abstracted, headers and all, as `fetch`) together with the concrete
`trimArticleForEpub`. -/
def mediaImplFor (kind : MediaKind) (fetch : String → Except String String)
    (eng : DomEngine) : MediaImpl :=
  match kind with
  | .leMonde => ⟨fetch, LeMondeMediaSource.trimArticleForEpub eng⟩
  | .gamekult => ⟨fetch, GamekultMediaSource.trimArticleForEpub eng⟩

/-- `UNKNOWN_RSS_FEED_TITLE` (epub_news.ts line 9). -/
def UNKNOWN_RSS_FEED_TITLE : String := "No feed title"

/-- JavaScript `a || b` on an optional string and a string. -/
def jsOrString (a : Option String) (b : String) : String :=
  match a with
  | some s => if s = "" then b else s
  | none => b

/-- A parsed RSS feed as returned by the external `rss-parser`. -/
structure RssFeed where
  title : Option String
  items : List Item
deriving Repr, DecidableEq

/-- `MediaSource.parseRSSFeed` (media_source.ts, lines 144-156): parse the
feed, store its title in `_feedTitle`, and return its items.  This is the
only method of any media source that writes `_feedTitle`. -/
def MediaSource.parseRSSFeed (st : SourceState) (feed : RssFeed) :
    List Item × SourceState :=
  (feed.items, { st with feedTitle := feed.title })

/-- The record returned by `EpubNews.getEpubDataFromArticles`
(epub_news.ts, lines 47-51 and 112-117). -/
structure EpubArticlesData where
  epubContent : List EpubArticle
  results : List ArticlesFetchingResult
  feedTitle : String
  cover : Option String
  customCss : Option String
deriving Repr, DecidableEq

/-- `EpubNews.getEpubDataFromArticles` (epub_news.ts, lines 102-118): create
a fresh media source for the feed url (throwing `NoMediaSourceError` when the
factory returns `null`), run `computeArticlesFromNewsList` on it, and return
its output together with `mediaSource.feedTitle || UNKNOWN_RSS_FEED_TITLE`,
`mediaSource.mediaSourceCover` and `mediaSource.customCss`. -/
def EpubNews.getEpubDataFromArticles (fetch : String → Except String String)
    (eng : DomEngine) (rssFeedUrl : String) (articles : List Item) :
    Except String EpubArticlesData :=
  match createMediaSource rssFeedUrl with
  | none => .error "NoMediaSourceError"
  | some kind =>
    match computeArticlesFromNewsList (mediaImplFor kind fetch eng)
        MediaSource.initState articles with
    | .error e => .error e
    | .ok (r, st) =>
      .ok ⟨r.epubContent, r.results,
            jsOrString st.feedTitle UNKNOWN_RSS_FEED_TITLE, st.cover,
            customCssOf kind⟩

/-! ## Run-scoped deduplication -/

/-- Modelled from the spec: the orchestrating CLI (the `news_cli` entry point,
not among the provided sources) deduplicates the items of successive feeds
against a run-scoped `SeenSet` of identifiers.  Spec wording: "Dedup: drop
any item whose identifier is already in SeenSet; items without an identifier
always pass through. Add all identifiers of surviving items to SeenSet."
Items are scanned in feed order, checking and recording identifiers as they
are encountered. -/
def dedupItems (seen : List String) : List Item → List Item × List String
  | [] => ([], seen)
  | i :: rest =>
    match i.guid with
    | none =>
      (i :: (dedupItems seen rest).1, (dedupItems seen rest).2)
    | some g =>
      if g ∈ seen then dedupItems seen rest
      else (i :: (dedupItems (g :: seen) rest).1, (dedupItems (g :: seen) rest).2)

/-- Modelled from the spec: feeds are processed in order, the `SeenSet`
threading from each feed into the next, and the per-feed survivors are
concatenated in encounter order into the run aggregate. -/
def aggregateFeeds (seen : List String) : List (List Item) → List Item
  | [] => []
  | f :: fs =>
    (dedupItems seen f).1 ++ aggregateFeeds (dedupItems seen f).2 fs

/-! ## Equation lemmas for `computeArticlesFromNewsList` -/

theorem compute_nil (impl : MediaImpl) (st : SourceState) :
    computeArticlesFromNewsList impl st [] = .ok (⟨[], []⟩, st) := rfl

theorem compute_cons_skip (impl : MediaImpl) (st : SourceState) (n : Item)
    (rest : List Item) (h : shouldProcess n = false) :
    computeArticlesFromNewsList impl st (n :: rest)
      = computeArticlesFromNewsList impl st rest := by
  simp [computeArticlesFromNewsList, h]

theorem compute_cons_fetch_error (impl : MediaImpl) (st : SourceState) (n : Item)
    (rest : List Item) (e : String) (h1 : shouldProcess n = true)
    (h2 : impl.fetch (n.link.getD "") = .error e) :
    computeArticlesFromNewsList impl st (n :: rest) = .error e := by
  simp [computeArticlesFromNewsList, h1, h2]

theorem compute_cons_trim_ok (impl : MediaImpl) (st st1 : SourceState) (n : Item)
    (rest : List Item) (article trimmed : String) (h1 : shouldProcess n = true)
    (h2 : impl.fetch (n.link.getD "") = .ok article)
    (h3 : impl.trim st n article = (.ok trimmed, st1)) :
    computeArticlesFromNewsList impl st (n :: rest)
      = Except.map (fun rs =>
          (⟨⟨n.title.getD "", trimmed, n.creator⟩ :: rs.1.epubContent,
            successOutcome n :: rs.1.results⟩, rs.2))
        (computeArticlesFromNewsList impl st1 rest) := by
  cases h4 : computeArticlesFromNewsList impl st1 rest with
  | error e => simp [computeArticlesFromNewsList, h1, h2, h3, h4, Except.map]
  | ok value =>
    cases value with
    | mk r st2 => simp [computeArticlesFromNewsList, h1, h2, h3, h4, Except.map]

theorem compute_cons_trim_error (impl : MediaImpl) (st st1 : SourceState) (n : Item)
    (rest : List Item) (article e : String) (h1 : shouldProcess n = true)
    (h2 : impl.fetch (n.link.getD "") = .ok article)
    (h3 : impl.trim st n article = (.error e, st1)) :
    computeArticlesFromNewsList impl st (n :: rest)
      = Except.map (fun rs =>
          (⟨rs.1.epubContent, failureOutcome n e :: rs.1.results⟩, rs.2))
        (computeArticlesFromNewsList impl st1 rest) := by
  cases h4 : computeArticlesFromNewsList impl st1 rest with
  | error e2 => simp [computeArticlesFromNewsList, h1, h2, h3, h4, Except.map]
  | ok value =>
    cases value with
    | mk r st2 => simp [computeArticlesFromNewsList, h1, h2, h3, h4, Except.map]

/-! ## Concrete objects used by witnesses and counterexamples -/

/-- A DOM engine on whose cleaned documents no selector ever matches. -/
def engNone : DomEngine := ⟨fun _ _ => none⟩

/-- A DOM engine on whose cleaned documents exactly the selector
`.zone.zone--article` matches, with node string `the content`. -/
def engZone : DomEngine := ⟨fun _ sel =>
  if sel = ".zone.zone--article" then some "the content" else none⟩

/-- A live-coverage Le Monde item that does carry a `media:content` url. -/
def liveItem : Item :=
  ⟨some "En direct, la situation", some "https://www.lemonde.fr/a", none,
    some "g-live", some (some "https://img.lemonde.fr/c/644/322/0/0/p.jpg")⟩

/-- A plain item with title, link and a `media:content` url. -/
def plainItem : Item :=
  ⟨some "Titre", some "https://www.lemonde.fr/b", some "Reporter",
    some "g-plain", some (some "https://img.lemonde.fr/c/644/322/0/0/q.jpg")⟩

/-- An item with a link but no title. -/
def untitledItem : Item :=
  ⟨none, some "https://www.lemonde.fr/c", none, some "g-untitled", none⟩

/-! ## C5 -/

/-- C5: for every Le Monde feed item whose title starts with the
live-coverage marker `En direct`, `trimArticleForEpub` fails with the
`LiveStream` category immediately: for every DOM engine, every instance
state and every raw HTML page, the result is the live-stream failure and
the state — including the cover — is left untouched, so no noise removal,
image handling, cover derivation or container selection is observable. -/
theorem C5_leMonde_live_title_fails_fast (eng : DomEngine) (st : SourceState)
    (newsFeed : Item) (article : String) (t : String)
    (htitle : newsFeed.title = some t)
    (hlive : jsStartsWith t "En direct" = true) :
    LeMondeMediaSource.trimArticleForEpub eng st newsFeed article
      = (.error liveStreamError, st) := by
  have hne : t ≠ "" := by
    intro h
    subst h
    exact absurd hlive (by decide)
  simp [LeMondeMediaSource.trimArticleForEpub, htitle, jsTruthy, hne, hlive]

/-- Witness for C5 at a concrete live item, page and engine. -/
theorem C5_witness :
    LeMondeMediaSource.trimArticleForEpub engZone MediaSource.initState
      liveItem "<html>page</html>" = (.error liveStreamError, MediaSource.initState) :=
  C5_leMonde_live_title_fails_fast engZone MediaSource.initState liveItem
    "<html>page</html>" "En direct, la situation" rfl (by decide)

/-! ## C6 -/

/-- C6: `createMediaSource` evaluates Le Monde's pattern predicate first and
then Gamekult's exact-match predicate (which accepts exactly
`https://www.gamekult.com/feed.xml`); the first accepting strategy wins, and
when neither predicate accepts the url the factory returns the unmatched
signal (`null`, here `none`) rather than raising an error. -/
theorem C6_createMediaSource_dispatch (url : String) :
    (LeMondeMediaSource.isHandlingRssFeed url = true →
      createMediaSource url = some MediaKind.leMonde) ∧
    (LeMondeMediaSource.isHandlingRssFeed url = false →
      GamekultMediaSource.isHandlingRssFeed url = true →
      createMediaSource url = some MediaKind.gamekult) ∧
    (LeMondeMediaSource.isHandlingRssFeed url = false →
      GamekultMediaSource.isHandlingRssFeed url = false →
      createMediaSource url = none) ∧
    (GamekultMediaSource.isHandlingRssFeed url = true ↔ url = GAMEKULT_FEED_URL) := by
  refine ⟨fun h1 => ?_, fun h1 h2 => ?_, fun h1 h2 => ?_, ?_⟩
  · simp [createMediaSource, h1]
  · simp [createMediaSource, h1, h2]
  · simp [createMediaSource, h1, h2]
  · simp [GamekultMediaSource.isHandlingRssFeed]

/-- Witness for C6: the Gamekult feed url is rejected by Le Monde's
predicate, accepted by Gamekult's, and dispatched to the Gamekult strategy;
a url matching neither predicate yields `none`. -/
theorem C6_witness :
    createMediaSource "https://www.gamekult.com/feed.xml" = some MediaKind.gamekult ∧
    createMediaSource "https://example.com/feed.xml" = none :=
  ⟨(C6_createMediaSource_dispatch "https://www.gamekult.com/feed.xml").2.1
      (by decide) (by decide),
    (C6_createMediaSource_dispatch "https://example.com/feed.xml").2.2.1
      (by decide) (by decide)⟩

/-! ## C8 -/

/-- C8: an item of the news list lacking a title or lacking a link is
skipped by `computeArticlesFromNewsList` with no Outcome and no extracted
article: the result on any list containing such an item is identical to the
result on the same list with that item removed. -/
theorem C8_missing_title_or_link_skip (impl : MediaImpl) (st : SourceState)
    (l1 l2 : List Item) (n : Item) (h : n.title = none ∨ n.link = none) :
    computeArticlesFromNewsList impl st (l1 ++ n :: l2)
      = computeArticlesFromNewsList impl st (l1 ++ l2) := by
  have hn : shouldProcess n = false := by
    rcases h with h | h <;> simp [shouldProcess, jsTruthy, h]
  induction l1 generalizing st with
  | nil => simpa using compute_cons_skip impl st n l2 hn
  | cons m l1 ih =>
    simp only [List.cons_append]
    by_cases hm : shouldProcess m = true
    · simp only [computeArticlesFromNewsList, hm, if_true]
      cases impl.fetch (m.link.getD "") with
      | error e => rfl
      | ok article =>
        cases htr : impl.trim st m article with
        | mk tres st1 =>
          cases tres with
          | ok trimmed => simp only [ih]
          | error e => simp only [ih]
    · rw [compute_cons_skip impl st m _ (by simpa using hm),
        compute_cons_skip impl st m _ (by simpa using hm)]
      exact ih st

/-- Witness for C8 at a concrete list: the untitled item contributes
nothing. -/
theorem C8_witness :
    ((untitledItem.title = none ∨ untitledItem.link = none) ∧
      computeArticlesFromNewsList ⟨fun _ => .ok "html", fun st _ _ => (.ok "body", st)⟩
        MediaSource.initState ([plainItem] ++ untitledItem :: [liveItem])
        = computeArticlesFromNewsList ⟨fun _ => .ok "html", fun st _ _ => (.ok "body", st)⟩
            MediaSource.initState ([plainItem] ++ [liveItem])) :=
  ⟨Or.inl rfl,
    C8_missing_title_or_link_skip ⟨fun _ => .ok "html", fun st _ _ => (.ok "body", st)⟩
      MediaSource.initState [plainItem] [liveItem] untitledItem (Or.inl rfl)⟩

/-! ## C1 -/

/-- A media source whose fetch rejects on one specific link and whose trim
always succeeds. -/
def fetchFailImpl : MediaImpl :=
  ⟨fun l => if l = "https://fail" then .error "Error: socket hang up" else .ok "html",
    fun st _ _ => (.ok "body", st)⟩

/-- An item whose article fetch suffers a transport failure. -/
def itemFetchFail : Item := ⟨some "A", some "https://fail", none, none, none⟩

/-- An item whose article would be fetched and trimmed successfully. -/
def itemAfter : Item := ⟨some "B", some "https://ok", none, none, none⟩

/-- Counterexample to C1: both items have a title and a link, and the second
item alone is processed successfully, yet on the two-item list the transport
failure of the first item's fetch makes `computeArticlesFromNewsList` fail
as a whole — no failure Outcome is appended for the first item and the
second item is never processed, because the `await` of the fetch stands
outside the `try`/`catch` that converts errors into Outcomes. -/
theorem C1_counterexample :
    computeArticlesFromNewsList fetchFailImpl MediaSource.initState
        [itemFetchFail, itemAfter]
      = .error "Error: socket hang up" ∧
    computeArticlesFromNewsList fetchFailImpl MediaSource.initState [itemAfter]
      = .ok (⟨[⟨"B", "body", none⟩], [successOutcome itemAfter]⟩,
              MediaSource.initState) :=
  ⟨rfl, rfl⟩

/-- C1 (amended): only failures thrown by the trim step are isolated.  If an
item with title and link fetches successfully and its trim throws (any
category), exactly one failure Outcome carrying the stringified cause is
appended for it and every remaining item is processed exactly as before; but
if the article fetch fails with a transport failure, the failure is not
caught: `computeArticlesFromNewsList` fails with that cause, records no
Outcome for the item, and processes no later item. -/
theorem C1_amended_trim_failures_isolated
    (impl : MediaImpl) (st st1 : SourceState) (n : Item) (rest : List Item)
    (article e : String) (h1 : shouldProcess n = true) :
    (impl.fetch (n.link.getD "") = .ok article →
      impl.trim st n article = (.error e, st1) →
      computeArticlesFromNewsList impl st (n :: rest)
        = Except.map (fun rs =>
            (⟨rs.1.epubContent, failureOutcome n e :: rs.1.results⟩, rs.2))
          (computeArticlesFromNewsList impl st1 rest)) ∧
    (impl.fetch (n.link.getD "") = .error e →
      computeArticlesFromNewsList impl st (n :: rest) = .error e) :=
  ⟨fun h2 h3 => compute_cons_trim_error impl st st1 n rest article e h1 h2 h3,
    fun h2 => compute_cons_fetch_error impl st n rest e h1 h2⟩

/-- Witness for C1 (amended): a concrete item whose trim throws the `Empty`
category yields exactly one failure Outcome and the following item is still
processed. -/
theorem C1_witness :
    computeArticlesFromNewsList
        ⟨fun _ => .ok "html",
          fun st n _ => if n.title = some "A" then (.error emptyError, st)
            else (.ok "body", st)⟩
        MediaSource.initState [⟨some "A", some "https://a", none, none, none⟩, itemAfter]
      = .ok (⟨[⟨"B", "body", none⟩],
              [failureOutcome ⟨some "A", some "https://a", none, none, none⟩ emptyError,
                successOutcome itemAfter]⟩, MediaSource.initState) := by
  rw [(C1_amended_trim_failures_isolated
      ⟨fun _ => .ok "html",
        fun st n _ => if n.title = some "A" then (.error emptyError, st)
          else (.ok "body", st)⟩
      MediaSource.initState MediaSource.initState
      ⟨some "A", some "https://a", none, none, none⟩ [itemAfter]
      "html" emptyError (by decide)).1 rfl rfl]
  rfl


/-! ## C4 -/

/-- The ordered candidate content-container list of the Le Monde source
(media_source_le_monde.ts, lines 104-107). -/
def leMondeContainers : List String :=
  [".zone.zone--article", ".article--longform.article--content"]

/-- The ordered candidate content-container list of the Gamekult source
(media_source_gamekult.ts, lines 252-256). -/
def gamekultContainers : List String :=
  [".ed__review__article", "article.js-start-progression-bar"]

/-- Counterexample to C4: a Le Monde item whose title carries the
live-coverage marker, on a page whose noise-cleaned document does match the
first candidate container — `trimArticleForEpub` nevertheless does not
return that container's string, failing with the live-stream error instead. -/
theorem C4_counterexample :
    engZone.cleanedQuery "<html>page</html>" ".zone.zone--article" = some "the content" ∧
    (LeMondeMediaSource.trimArticleForEpub engZone MediaSource.initState liveItem
        "<html>page</html>").1 = .error liveStreamError ∧
    (LeMondeMediaSource.trimArticleForEpub engZone MediaSource.initState liveItem
        "<html>page</html>").1 ≠ .ok "the content" :=
  ⟨rfl, rfl, fun h => Except.noConfusion h⟩

/-- C4 (amended): provided the live-coverage guard does not fire (Le Monde
only; Gamekult has no such guard) and the cover-derivation step does not
throw (it throws a `TypeError` when no cover is set yet and the item carries
no `media:content` attribute record), `trimArticleForEpub` returns the
string of the first element of its source's ordered two-candidate
content-container list that matches the noise-cleaned document — for
Gamekult with the protocol-relative CDN urls of that string rewritten to
explicit https — and fails with the `Empty` category (`empty, skip`) if and
only if neither candidate container matches. -/
theorem C4_amended_first_container_selection :
    (∀ (eng : DomEngine) (st : SourceState) (n : Item) (article : String)
        (c : Option String),
      (jsTruthy n.title && jsStartsWith (n.title.getD "") "En direct") = false →
      LeMondeMediaSource.createBookCoverFromArticle st.cover n = .ok c →
      (LeMondeMediaSource.trimArticleForEpub eng st n article).1
        = (match leMondeContainers.findSome? (eng.cleanedQuery article) with
           | some s => .ok s
           | none => .error emptyError)) ∧
    (∀ (eng : DomEngine) (st : SourceState) (n : Item) (article : String)
        (c : Option String),
      GamekultMediaSource.createBookCoverFromArticle st.cover n = .ok c →
      (GamekultMediaSource.trimArticleForEpub eng st n article).1
        = (match gamekultContainers.findSome? (eng.cleanedQuery article) with
           | some s => .ok (gamekultCdnSchemeFix s)
           | none => .error emptyError)) := by
  constructor
  · intro eng st n article c hlive hcover
    simp only [LeMondeMediaSource.trimArticleForEpub, hlive, Bool.false_eq_true,
      if_false, hcover, leMondeContainers, List.findSome?]
    cases eng.cleanedQuery article ".zone.zone--article" with
    | some s => rfl
    | none =>
      cases eng.cleanedQuery article ".article--longform.article--content" with
      | some s => rfl
      | none => rfl
  · intro eng st n article c hcover
    simp only [GamekultMediaSource.trimArticleForEpub, hcover, gamekultContainers,
      List.findSome?]
    cases eng.cleanedQuery article ".ed__review__article" with
    | some s => rfl
    | none =>
      cases eng.cleanedQuery article "article.js-start-progression-bar" with
      | some s => rfl
      | none => rfl

/-- Witness for C4 (amended): a non-live Le Monde item on a page whose first
candidate container matches yields that container's string; on a page where
no candidate matches, the `Empty` failure. -/
theorem C4_witness :
    (LeMondeMediaSource.trimArticleForEpub engZone MediaSource.initState plainItem
        "<html>page</html>").1 = .ok "the content" ∧
    (LeMondeMediaSource.trimArticleForEpub engNone MediaSource.initState plainItem
        "<html>page</html>").1 = .error emptyError := by
  constructor
  · rw [C4_amended_first_container_selection.1 engZone MediaSource.initState plainItem
        "<html>page</html>" (some "https://img.lemonde.fr/c/1410/2250/0/0/q.jpg")
        (by decide) rfl]
    rfl
  · rw [C4_amended_first_container_selection.1 engNone MediaSource.initState plainItem
        "<html>page</html>" (some "https://img.lemonde.fr/c/1410/2250/0/0/q.jpg")
        (by decide) rfl]
    rfl

/-! ## C2 -/

/-- C2: whenever `computeArticlesFromNewsList` returns a result, each item
with both a (truthy) title and link contributes exactly one entry to the
returned `results` list; an `epubContent` entry exists for an item if and
only if its Outcome is a success (their title sequences coincide), and in
particular the number of success Outcomes equals the number of extracted
articles. -/
theorem C2_one_outcome_per_item_article_iff_success
    (impl : MediaImpl) (st st' : SourceState) (news : List Item)
    (r : ComputeArticlesResult)
    (h : computeArticlesFromNewsList impl st news = .ok (r, st')) :
    r.results.length = (news.filter shouldProcess).length ∧
    r.epubContent.map (fun a => a.title)
      = (r.results.filter (fun o => o.success)).map (fun o => o.title) ∧
    r.epubContent.length = (r.results.filter (fun o => o.success)).length := by
  induction news generalizing st st' r with
  | nil =>
    rw [compute_nil] at h
    injection h with h'
    injection h' with h1 h2
    subst h1
    simp
  | cons n rest ih =>
    by_cases hp : shouldProcess n = true
    · cases hf : impl.fetch (n.link.getD "") with
      | error e =>
        rw [compute_cons_fetch_error impl st n rest e hp hf] at h
        exact absurd h (by simp)
      | ok article =>
        rcases htr : impl.trim st n article with ⟨tres, st1⟩
        cases tres with
        | ok trimmed =>
          rw [compute_cons_trim_ok impl st st1 n rest article trimmed hp hf htr] at h
          cases hr : computeArticlesFromNewsList impl st1 rest with
          | error e => rw [hr] at h; exact absurd h (by simp [Except.map])
          | ok rs =>
            rw [hr] at h
            rcases rs with ⟨r1, st2⟩
            simp only [Except.map] at h
            injection h with h'
            injection h' with h1 h2
            subst h1
            obtain ⟨ih1, ih2, ih3⟩ := ih st1 st2 r1 hr
            simp [List.filter_cons, hp, successOutcome, ih1, ih2, ih3]
        | error e =>
          rw [compute_cons_trim_error impl st st1 n rest article e hp hf htr] at h
          cases hr : computeArticlesFromNewsList impl st1 rest with
          | error e2 => rw [hr] at h; exact absurd h (by simp [Except.map])
          | ok rs =>
            rw [hr] at h
            rcases rs with ⟨r1, st2⟩
            simp only [Except.map] at h
            injection h with h'
            injection h' with h1 h2
            subst h1
            obtain ⟨ih1, ih2, ih3⟩ := ih st1 st2 r1 hr
            simp [List.filter_cons, hp, failureOutcome, ih1, ih2, ih3]
    · rw [compute_cons_skip impl st n rest (by simpa using hp)] at h
      obtain ⟨ih1, ih2, ih3⟩ := ih st st' r h
      simp [List.filter_cons, hp, ih1, ih2, ih3]

/-- Witness for C2 at a concrete two-item run with one success and one
`Empty` failure. -/
theorem C2_witness :
    computeArticlesFromNewsList
        ⟨fun _ => .ok "html",
          fun st n _ => if n.title = some "A" then (.error emptyError, st)
            else (.ok "body", st)⟩
        MediaSource.initState [⟨some "A", some "https://a", none, none, none⟩, itemAfter]
      = .ok (⟨[⟨"B", "body", none⟩],
              [failureOutcome ⟨some "A", some "https://a", none, none, none⟩ emptyError,
                successOutcome itemAfter]⟩, MediaSource.initState) ∧
    ([⟨"B", "body", none⟩] : List EpubArticle).length
      = ([failureOutcome ⟨some "A", some "https://a", none, none, none⟩ emptyError,
          successOutcome itemAfter].filter (fun o => o.success)).length := by
  refine ⟨rfl, ?_⟩
  exact (C2_one_outcome_per_item_article_iff_success
    ⟨fun _ => .ok "html",
      fun st n _ => if n.title = some "A" then (.error emptyError, st)
        else (.ok "body", st)⟩
    MediaSource.initState MediaSource.initState
    [⟨some "A", some "https://a", none, none, none⟩, itemAfter]
    ⟨[⟨"B", "body", none⟩],
      [failureOutcome ⟨some "A", some "https://a", none, none, none⟩ emptyError,
        successOutcome itemAfter]⟩ rfl).2.2

/-! ## C3 -/

/-- C3: whenever `computeArticlesFromNewsList` returns a result, the
outcomes list carries exactly the processed items, in input order (its
title/link projection equals that of the input list filtered to items with
truthy title and link), and the extracted articles appear in exactly the
input order of their items: the title/author projection of `epubContent` is
a sublist (order-preserving selection) of the input projection, and its
title sequence is exactly the title sequence of the success outcomes.
Processing is a strictly sequential left-to-right traversal, which these
order equalities witness. -/
theorem C3_order_preservation
    (impl : MediaImpl) (st st' : SourceState) (news : List Item)
    (r : ComputeArticlesResult)
    (h : computeArticlesFromNewsList impl st news = .ok (r, st')) :
    r.results.map (fun o => (o.title, o.link))
      = (news.filter shouldProcess).map (fun n => (n.title.getD "", n.link.getD "")) ∧
    List.Sublist (r.epubContent.map (fun a => (a.title, a.author)))
      (news.map (fun n => (n.title.getD "", n.creator))) ∧
    r.epubContent.map (fun a => a.title)
      = (r.results.filter (fun o => o.success)).map (fun o => o.title) := by
  induction news generalizing st st' r with
  | nil =>
    rw [compute_nil] at h
    injection h with h'
    injection h' with h1 h2
    subst h1
    simp
  | cons n rest ih =>
    by_cases hp : shouldProcess n = true
    · cases hf : impl.fetch (n.link.getD "") with
      | error e =>
        rw [compute_cons_fetch_error impl st n rest e hp hf] at h
        exact absurd h (by simp)
      | ok article =>
        rcases htr : impl.trim st n article with ⟨tres, st1⟩
        cases tres with
        | ok trimmed =>
          rw [compute_cons_trim_ok impl st st1 n rest article trimmed hp hf htr] at h
          cases hr : computeArticlesFromNewsList impl st1 rest with
          | error e => rw [hr] at h; exact absurd h (by simp [Except.map])
          | ok rs =>
            rw [hr] at h
            rcases rs with ⟨r1, st2⟩
            simp only [Except.map] at h
            injection h with h'
            injection h' with h1 h2
            subst h1
            obtain ⟨ih1, ih2, ih3⟩ := ih st1 st2 r1 hr
            refine ⟨?_, ?_, ?_⟩
            · simp [List.filter_cons, hp, successOutcome, ih1]
            · simp only [List.map_cons]
              exact List.Sublist.cons₂ _ ih2
            · simp [List.filter_cons, successOutcome, ih3]
        | error e =>
          rw [compute_cons_trim_error impl st st1 n rest article e hp hf htr] at h
          cases hr : computeArticlesFromNewsList impl st1 rest with
          | error e2 => rw [hr] at h; exact absurd h (by simp [Except.map])
          | ok rs =>
            rw [hr] at h
            rcases rs with ⟨r1, st2⟩
            simp only [Except.map] at h
            injection h with h'
            injection h' with h1 h2
            subst h1
            obtain ⟨ih1, ih2, ih3⟩ := ih st1 st2 r1 hr
            refine ⟨?_, ?_, ?_⟩
            · simp [List.filter_cons, hp, failureOutcome, ih1]
            · exact List.Sublist.cons _ ih2
            · simp [List.filter_cons, failureOutcome, ih3]
    · rw [compute_cons_skip impl st n rest (by simpa using hp)] at h
      obtain ⟨ih1, ih2, ih3⟩ := ih st st' r h
      exact ⟨by simp [List.filter_cons, hp, ih1],
        List.Sublist.cons _ ih2, ih3⟩

/-- Witness for C3 at a concrete three-item run (success, failure,
success). -/
theorem C3_witness :
    ([successOutcome plainItem,
        failureOutcome ⟨some "A", some "https://a", none, none, none⟩ emptyError,
        successOutcome itemAfter].map (fun o => (o.title, o.link))
      = ([plainItem, ⟨some "A", some "https://a", none, none, none⟩,
          itemAfter].filter shouldProcess).map
          (fun n => (n.title.getD "", n.link.getD ""))) ∧
    List.Sublist
      (([⟨"Titre", "body", some "Reporter"⟩, ⟨"B", "body", none⟩] : List EpubArticle).map
        (fun a => (a.title, a.author)))
      ([plainItem, ⟨some "A", some "https://a", none, none, none⟩,
        itemAfter].map (fun n => (n.title.getD "", n.creator))) := by
  have h := C3_order_preservation
    ⟨fun _ => .ok "html",
      fun st n _ => if n.title = some "A" then (.error emptyError, st)
        else (.ok "body", st)⟩
    MediaSource.initState MediaSource.initState
    [plainItem, ⟨some "A", some "https://a", none, none, none⟩, itemAfter]
    ⟨[⟨"Titre", "body", some "Reporter"⟩, ⟨"B", "body", none⟩],
      [successOutcome plainItem,
        failureOutcome ⟨some "A", some "https://a", none, none, none⟩ emptyError,
        successOutcome itemAfter]⟩ rfl
  exact ⟨h.1, h.2.1⟩

/-! ## C7 -/

/-- The `_cover` field after a sequence of `createBookCoverFromArticle`
calls starting from the given cover: each call either updates the field
(`.ok`) or throws (`.error`), in which case the field keeps its value (the
thrown `TypeError` is caught further up, in the `catch` of
`computeArticlesFromNewsList`, and the run continues past the item). -/
def runCoverCallsFrom (f : Option String → Item → Except Unit (Option String))
    (c0 : Option String) (items : List Item) : Option String :=
  items.foldl (fun c it =>
    match f c it with
    | .ok c2 => c2
    | .error _ => c) c0

/-- The `_cover` field after a run of `createBookCoverFromArticle` calls on
a fresh instance (`_cover` initially `undefined`). -/
def runCoverCalls (f : Option String → Item → Except Unit (Option String))
    (items : List Item) : Option String :=
  runCoverCallsFrom f none items

/-- The (truthy) `media:content` url carried by an item, when any. -/
def itemCoverUrl (n : Item) : Option String :=
  match n.mediaContent with
  | some (some u) => if u = "" then none else some u
  | _ => none

theorem itemCoverUrl_ne_empty (n : Item) (u : String)
    (h : itemCoverUrl n = some u) : u ≠ "" := by
  unfold itemCoverUrl at h
  cases hm : n.mediaContent with
  | none => rw [hm] at h; exact absurd h (by simp)
  | some url =>
    cases url with
    | none => rw [hm] at h; exact absurd h (by simp)
    | some v =>
      rw [hm] at h
      dsimp only at h
      by_cases hv : v = ""
      · rw [if_pos hv] at h; exact absurd h (by simp)
      · rw [if_neg hv] at h
        injection h with h'
        subst h'
        exact hv

theorem leMondeCoverRewrite_ne_empty (u : String) (h : u ≠ "") :
    leMondeCoverRewrite u ≠ "" := by
  unfold leMondeCoverRewrite
  split
  · unfold replaceFirstOcc
    cases hs : firstOccSplit DEFAUT_FEED_IMAGE_SIZE.data u.data with
    | none => simpa using h
    | some p =>
      intro hcontra
      have hd := congrArg String.data hcontra
      simp [String.data_append, EXPECTED_COVER_IMAGE_SIZE] at hd
  · exact h

theorem leMonde_cover_idempotent (c : Option String) (n : Item)
    (h : jsTruthy c = true) :
    LeMondeMediaSource.createBookCoverFromArticle c n = .ok c := by
  simp [LeMondeMediaSource.createBookCoverFromArticle, h]

theorem gamekult_cover_idempotent (c : Option String) (n : Item)
    (h : jsTruthy c = true) :
    GamekultMediaSource.createBookCoverFromArticle c n = .ok c := by
  simp [GamekultMediaSource.createBookCoverFromArticle, h]

theorem coverCallsFrom_stay (f : Option String → Item → Except Unit (Option String))
    (hf : ∀ (c : Option String) (n : Item), jsTruthy c = true → f c n = .ok c)
    (v : String) (hv : v ≠ "") (items : List Item) :
    runCoverCallsFrom f (some v) items = some v := by
  induction items with
  | nil => rfl
  | cons n rest ih =>
    simp only [runCoverCallsFrom, List.foldl_cons]
    rw [hf (some v) n (by simp [jsTruthy, hv])]
    exact ih

theorem leMonde_cover_step_none (n : Item) :
    (match LeMondeMediaSource.createBookCoverFromArticle none n with
      | .ok c2 => c2
      | .error _ => none)
      = (itemCoverUrl n).map leMondeCoverRewrite := by
  unfold LeMondeMediaSource.createBookCoverFromArticle itemCoverUrl jsTruthy
  cases n.mediaContent with
  | none => rfl
  | some url =>
    cases url with
    | none => rfl
    | some u =>
      by_cases hu : u = "" <;> simp [hu]

theorem gamekult_cover_step_none (n : Item) :
    (match GamekultMediaSource.createBookCoverFromArticle none n with
      | .ok c2 => c2
      | .error _ => none)
      = itemCoverUrl n := by
  unfold GamekultMediaSource.createBookCoverFromArticle itemCoverUrl jsTruthy
  cases n.mediaContent with
  | none => rfl
  | some url =>
    cases url with
    | none => rfl
    | some u =>
      by_cases hu : u = "" <;> simp [hu]

/-- C7: over any sequence of `createBookCoverFromArticle` calls in a run on
a fresh strategy instance, the final cover is derived from the first
processed item that carries a truthy `media:content` url — unchanged for
Gamekult, and with the `644/322` size token of the url rewritten to
`1410/2250` for Le Monde — and once a cover is set, every later call is a
no-op that leaves it unchanged. -/
theorem C7_cover_first_wins_and_idempotent :
    (∀ items : List Item,
      runCoverCalls LeMondeMediaSource.createBookCoverFromArticle items
        = (items.findSome? itemCoverUrl).map leMondeCoverRewrite) ∧
    (∀ items : List Item,
      runCoverCalls GamekultMediaSource.createBookCoverFromArticle items
        = items.findSome? itemCoverUrl) ∧
    (∀ (c : Option String) (n : Item), jsTruthy c = true →
      LeMondeMediaSource.createBookCoverFromArticle c n = .ok c ∧
      GamekultMediaSource.createBookCoverFromArticle c n = .ok c) := by
  refine ⟨?_, ?_, fun c n h => ⟨leMonde_cover_idempotent c n h,
    gamekult_cover_idempotent c n h⟩⟩
  · intro items
    induction items with
    | nil => rfl
    | cons n rest ih =>
      rw [runCoverCalls, runCoverCallsFrom, List.foldl_cons,
        List.findSome?_cons]
      rw [leMonde_cover_step_none n]
      cases hcu : itemCoverUrl n with
      | none => exact ih
      | some u =>
        have hu : u ≠ "" := itemCoverUrl_ne_empty n u hcu
        simp only [Option.map_some]
        exact coverCallsFrom_stay LeMondeMediaSource.createBookCoverFromArticle
          leMonde_cover_idempotent (leMondeCoverRewrite u)
          (leMondeCoverRewrite_ne_empty u hu) rest
  · intro items
    induction items with
    | nil => rfl
    | cons n rest ih =>
      rw [runCoverCalls, runCoverCallsFrom, List.foldl_cons,
        List.findSome?_cons]
      rw [gamekult_cover_step_none n]
      cases hcu : itemCoverUrl n with
      | none => exact ih
      | some u =>
        exact coverCallsFrom_stay GamekultMediaSource.createBookCoverFromArticle
          gamekult_cover_idempotent u (itemCoverUrl_ne_empty n u hcu) rest

/-- Witness for C7: a concrete run in which the first item carries no
`media:content`, the second carries the low-resolution url and sets the
rewritten cover, and the third, also carrying a url, leaves it unchanged. -/
theorem C7_witness :
    runCoverCalls LeMondeMediaSource.createBookCoverFromArticle
        [untitledItem, plainItem, liveItem]
      = some "https://img.lemonde.fr/c/1410/2250/0/0/q.jpg" ∧
    LeMondeMediaSource.createBookCoverFromArticle
        (some "https://img.lemonde.fr/c/1410/2250/0/0/q.jpg") liveItem
      = .ok (some "https://img.lemonde.fr/c/1410/2250/0/0/q.jpg") := by
  constructor
  · rw [C7_cover_first_wins_and_idempotent.1 [untitledItem, plainItem, liveItem]]
    rfl
  · exact (C7_cover_first_wins_and_idempotent.2.2
      (some "https://img.lemonde.fr/c/1410/2250/0/0/q.jpg") liveItem (by decide)).1

/-! ## C10 -/

theorem leMonde_trim_feedTitle (eng : DomEngine) (st : SourceState) (n : Item)
    (a : String) :
    ((LeMondeMediaSource.trimArticleForEpub eng st n a).2).feedTitle = st.feedTitle := by
  unfold LeMondeMediaSource.trimArticleForEpub
  split
  · rfl
  · cases hc : LeMondeMediaSource.createBookCoverFromArticle st.cover n with
    | error e => rfl
    | ok c1 =>
      cases hq1 : eng.cleanedQuery a ".zone.zone--article" with
      | some dom => rfl
      | none =>
        cases hq2 : eng.cleanedQuery a ".article--longform.article--content" with
        | some dom => rfl
        | none => rfl

theorem gamekult_trim_feedTitle (eng : DomEngine) (st : SourceState) (n : Item)
    (a : String) :
    ((GamekultMediaSource.trimArticleForEpub eng st n a).2).feedTitle = st.feedTitle := by
  unfold GamekultMediaSource.trimArticleForEpub
  cases hc : GamekultMediaSource.createBookCoverFromArticle st.cover n with
  | error e => rfl
  | ok c1 =>
    cases hq1 : eng.cleanedQuery a ".ed__review__article" with
    | some dom => rfl
    | none =>
      cases hq2 : eng.cleanedQuery a "article.js-start-progression-bar" with
      | some dom => rfl
      | none => rfl

theorem mediaImplFor_trim_feedTitle (kind : MediaKind)
    (fetch : String → Except String String) (eng : DomEngine)
    (st : SourceState) (n : Item) (a : String) :
    (((mediaImplFor kind fetch eng).trim st n a).2).feedTitle = st.feedTitle := by
  cases kind with
  | leMonde => exact leMonde_trim_feedTitle eng st n a
  | gamekult => exact gamekult_trim_feedTitle eng st n a

theorem compute_preserves_feedTitle (impl : MediaImpl)
    (himpl : ∀ (st : SourceState) (n : Item) (a : String),
      ((impl.trim st n a).2).feedTitle = st.feedTitle)
    (news : List Item) :
    ∀ (st st' : SourceState) (r : ComputeArticlesResult),
      computeArticlesFromNewsList impl st news = .ok (r, st') →
      st'.feedTitle = st.feedTitle := by
  induction news with
  | nil =>
    intro st st' r h
    rw [compute_nil] at h
    injection h with h'
    injection h' with h1 h2
    rw [← h2]
  | cons n rest ih =>
    intro st st' r h
    by_cases hp : shouldProcess n = true
    · cases hf : impl.fetch (n.link.getD "") with
      | error e =>
        rw [compute_cons_fetch_error impl st n rest e hp hf] at h
        exact absurd h (by simp)
      | ok article =>
        rcases htr : impl.trim st n article with ⟨tres, st1⟩
        have hst1 : st1.feedTitle = st.feedTitle := by
          have hx := himpl st n article
          rw [htr] at hx
          exact hx
        cases tres with
        | ok trimmed =>
          rw [compute_cons_trim_ok impl st st1 n rest article trimmed hp hf htr] at h
          cases hr : computeArticlesFromNewsList impl st1 rest with
          | error e => rw [hr] at h; exact absurd h (by simp [Except.map])
          | ok rs =>
            rcases rs with ⟨r1, st2⟩
            rw [hr] at h
            simp only [Except.map] at h
            injection h with h'
            injection h' with h1 h2
            rw [← h2, ← hst1]
            exact ih st1 st2 r1 hr
        | error e =>
          rw [compute_cons_trim_error impl st st1 n rest article e hp hf htr] at h
          cases hr : computeArticlesFromNewsList impl st1 rest with
          | error e2 => rw [hr] at h; exact absurd h (by simp [Except.map])
          | ok rs =>
            rcases rs with ⟨r1, st2⟩
            rw [hr] at h
            simp only [Except.map] at h
            injection h with h'
            injection h' with h1 h2
            rw [← h2, ← hst1]
            exact ih st1 st2 r1 hr
    · rw [compute_cons_skip impl st n rest (by simpa using hp)] at h
      exact ih st st' r h

/-- C10: for every feed url that resolves to a media source and every
article list, a normal return of `EpubNews.getEpubDataFromArticles` carries
`feedTitle = "No feed title"`: the media source instance it creates is fresh
(`_feedTitle` unset), `computeArticlesFromNewsList` never writes
`_feedTitle`, and `parseRSSFeed` — the one operation that does set it — is
never invoked on that instance. -/
theorem C10_feed_title_fallback :
    (∀ (fetch : String → Except String String) (eng : DomEngine) (url : String)
        (articles : List Item) (d : EpubArticlesData),
      EpubNews.getEpubDataFromArticles fetch eng url articles = .ok d →
      d.feedTitle = "No feed title") ∧
    (∀ (st : SourceState) (feed : RssFeed),
      ((MediaSource.parseRSSFeed st feed).2).feedTitle = feed.title) := by
  constructor
  · intro fetch eng url articles d h
    unfold EpubNews.getEpubDataFromArticles at h
    cases hc : createMediaSource url with
    | none => rw [hc] at h; exact absurd h (by simp)
    | some kind =>
      rw [hc] at h
      dsimp only at h
      cases hcompute : computeArticlesFromNewsList (mediaImplFor kind fetch eng)
          MediaSource.initState articles with
      | error e => rw [hcompute] at h; exact absurd h (by simp)
      | ok rs =>
        rcases rs with ⟨r, st⟩
        rw [hcompute] at h
        injection h with h'
        have hft : st.feedTitle = MediaSource.initState.feedTitle :=
          compute_preserves_feedTitle (mediaImplFor kind fetch eng)
            (mediaImplFor_trim_feedTitle kind fetch eng) articles
            MediaSource.initState st r hcompute
        rw [← h']
        show jsOrString st.feedTitle UNKNOWN_RSS_FEED_TITLE = "No feed title"
        rw [hft]
        rfl
  · intro st feed
    rfl

/-- Witness for C10: a concrete call on the Gamekult feed url with an empty
article list returns the fallback feed title. -/
theorem C10_witness :
    EpubNews.getEpubDataFromArticles (fun _ => .error "e") engNone
        "https://www.gamekult.com/feed.xml" []
      = .ok ⟨[], [], "No feed title", none, customCssOf MediaKind.gamekult⟩ ∧
    (⟨[], [], "No feed title", none, customCssOf MediaKind.gamekult⟩ :
        EpubArticlesData).feedTitle = "No feed title" :=
  ⟨rfl, C10_feed_title_fallback.1 (fun _ => .error "e") engNone
    "https://www.gamekult.com/feed.xml" [] _ rfl⟩

/-! ## C9 -/

theorem dedupItems_fst_subset (f : List Item) :
    ∀ (seen : List String), ∀ x ∈ (dedupItems seen f).1, x ∈ f := by
  induction f with
  | nil => intro seen x hx; simp [dedupItems] at hx
  | cons i rest ih =>
    intro seen x hx
    unfold dedupItems at hx
    cases hg : i.guid with
    | none =>
      rw [hg] at hx
      dsimp only at hx
      rcases List.mem_cons.mp hx with h | h
      · exact List.mem_cons.mpr (Or.inl h)
      · exact List.mem_cons.mpr (Or.inr (ih seen x h))
    | some g =>
      rw [hg] at hx
      dsimp only at hx
      by_cases hs : g ∈ seen
      · rw [if_pos hs] at hx
        exact List.mem_cons.mpr (Or.inr (ih seen x hx))
      · rw [if_neg hs] at hx
        rcases List.mem_cons.mp hx with h | h
        · exact List.mem_cons.mpr (Or.inl h)
        · exact List.mem_cons.mpr (Or.inr (ih (g :: seen) x h))

theorem dedupItems_seen_sub (f : List Item) :
    ∀ (seen : List String) (g : String), g ∈ seen → g ∈ (dedupItems seen f).2 := by
  induction f with
  | nil => intro seen g h; simpa [dedupItems] using h
  | cons i rest ih =>
    intro seen g h
    unfold dedupItems
    cases hg : i.guid with
    | none => exact ih seen g h
    | some g2 =>
      dsimp only
      by_cases hs : g2 ∈ seen
      · rw [if_pos hs]
        exact ih seen g h
      · rw [if_neg hs]
        exact ih (g2 :: seen) g (List.mem_cons.mpr (Or.inr h))

theorem dedupItems_guid_added (f : List Item) :
    ∀ (seen : List String), ∀ x ∈ f, ∀ (g : String), x.guid = some g →
      g ∈ (dedupItems seen f).2 := by
  induction f with
  | nil => intro seen x hx; simp at hx
  | cons i rest ih =>
    intro seen x hx g hguid
    unfold dedupItems
    rcases List.mem_cons.mp hx with h | h
    · subst h
      rw [hguid]
      dsimp only
      by_cases hs : g ∈ seen
      · rw [if_pos hs]
        exact dedupItems_seen_sub rest seen g hs
      · rw [if_neg hs]
        exact dedupItems_seen_sub rest (g :: seen) g (List.mem_cons.mpr (Or.inl rfl))
    · cases hg : i.guid with
      | none => exact ih seen x h g hguid
      | some g2 =>
        dsimp only
        by_cases hs : g2 ∈ seen
        · rw [if_pos hs]
          exact ih seen x h g hguid
        · rw [if_neg hs]
          exact ih (g2 :: seen) x h g hguid

theorem dedupItems_fst_guid_new (f : List Item) :
    ∀ (seen : List String), ∀ x ∈ (dedupItems seen f).1, ∀ (g : String),
      x.guid = some g → g ∉ seen := by
  induction f with
  | nil => intro seen x hx; simp [dedupItems] at hx
  | cons i rest ih =>
    intro seen x hx g hguid
    unfold dedupItems at hx
    cases hg : i.guid with
    | none =>
      rw [hg] at hx
      dsimp only at hx
      rcases List.mem_cons.mp hx with h | h
      · subst h
        rw [hg] at hguid
        exact absurd hguid (by simp)
      · exact ih seen x h g hguid
    | some g2 =>
      rw [hg] at hx
      dsimp only at hx
      by_cases hs : g2 ∈ seen
      · rw [if_pos hs] at hx
        exact ih seen x hx g hguid
      · rw [if_neg hs] at hx
        rcases List.mem_cons.mp hx with h | h
        · subst h
          rw [hg] at hguid
          injection hguid with h2
          subst h2
          exact hs
        · intro hcontra
          exact ih (g2 :: seen) x h g hguid (List.mem_cons.mpr (Or.inr hcontra))

theorem dedupItems_guids_nodup (f : List Item) :
    ∀ (seen : List String),
      ((dedupItems seen f).1.filterMap (fun i => i.guid)).Nodup := by
  induction f with
  | nil => intro seen; simp [dedupItems]
  | cons i rest ih =>
    intro seen
    unfold dedupItems
    cases hg : i.guid with
    | none =>
      dsimp only
      rw [List.filterMap_cons]
      rw [hg]
      exact ih seen
    | some g =>
      dsimp only
      by_cases hs : g ∈ seen
      · rw [if_pos hs]
        exact ih seen
      · rw [if_neg hs]
        rw [List.filterMap_cons, hg]
        refine List.Nodup.cons ?_ (ih (g :: seen))
        intro hmem
        rcases List.mem_filterMap.mp hmem with ⟨x, hx, hxg⟩
        exact dedupItems_fst_guid_new rest (g :: seen) x hx g hxg
          (List.mem_cons.mpr (Or.inl rfl))

/-- C9: deduplication over a run (modelled from the spec, the orchestrating
CLI not being among the provided sources): an item whose identifier is
already in the run-scoped SeenSet is dropped; an item without an identifier
always passes through; the identifier of every surviving item is in the
SeenSet afterwards; and for two feeds A then B processed in order, the
aggregate's identifiers are pairwise distinct — B's repeats of identifiers
seen in A are dropped — and every aggregated item whose identifier occurs in
A is A's instance. -/
theorem C9_dedup_run_scoped :
    (∀ (seen : List String) (i : Item) (rest : List Item) (g : String),
        i.guid = some g → g ∈ seen →
        dedupItems seen (i :: rest) = dedupItems seen rest) ∧
    (∀ (seen : List String) (i : Item) (rest : List Item),
        i.guid = none →
        dedupItems seen (i :: rest)
          = (i :: (dedupItems seen rest).1, (dedupItems seen rest).2)) ∧
    (∀ (seen : List String) (f : List Item), ∀ x ∈ (dedupItems seen f).1,
        ∀ (g : String), x.guid = some g → g ∈ (dedupItems seen f).2) ∧
    (∀ A B : List Item,
        ((aggregateFeeds [] [A, B]).filterMap (fun i => i.guid)).Nodup ∧
        (∀ i ∈ aggregateFeeds [] [A, B], ∀ (g : String), i.guid = some g →
          (∃ a ∈ A, a.guid = some g) → i ∈ A)) := by
  refine ⟨?_, ?_, ?_, ?_⟩
  · intro seen i rest g hguid hseen
    conv_lhs => rw [dedupItems]
    rw [hguid]
    dsimp only
    rw [if_pos hseen]
  · intro seen i rest hguid
    conv_lhs => rw [dedupItems]
    rw [hguid]
  · intro seen f x hx g hg
    exact dedupItems_guid_added f seen x (dedupItems_fst_subset f seen x hx) g hg
  · intro A B
    have hagg : aggregateFeeds [] [A, B]
        = (dedupItems [] A).1 ++ (dedupItems (dedupItems [] A).2 B).1 := by
      simp [aggregateFeeds]
    constructor
    · rw [hagg, List.filterMap_append]
      refine List.Nodup.append (dedupItems_guids_nodup A [])
        (dedupItems_guids_nodup B (dedupItems [] A).2) ?_
      intro g hg1 hg2
      rcases List.mem_filterMap.mp hg1 with ⟨x, hx, hxg⟩
      rcases List.mem_filterMap.mp hg2 with ⟨y, hy, hyg⟩
      exact dedupItems_fst_guid_new B (dedupItems [] A).2 y hy g hyg
        (dedupItems_guid_added A [] x (dedupItems_fst_subset A [] x hx) g hxg)
    · intro i hi g hg hA
      rcases hA with ⟨a, ha, hag⟩
      rw [hagg] at hi
      rcases List.mem_append.mp hi with h | h
      · exact dedupItems_fst_subset A [] i h
      · exact absurd (dedupItems_guid_added A [] a ha g hag)
          (dedupItems_fst_guid_new B (dedupItems [] A).2 i h g hg)

/-- Witness for C9: a repeated identifier from feed A is dropped while
processing feed B, and a concrete two-feed aggregate has pairwise distinct
identifiers. -/
theorem C9_witness :
    dedupItems ["g-plain"] [plainItem, untitledItem]
      = dedupItems ["g-plain"] [untitledItem] ∧
    ((aggregateFeeds [] [[plainItem], [plainItem, liveItem]]).filterMap
        (fun i => i.guid)).Nodup :=
  ⟨C9_dedup_run_scoped.1 ["g-plain"] plainItem [untitledItem] "g-plain" rfl
      (by decide),
    (C9_dedup_run_scoped.2.2.2 [plainItem] [plainItem, liveItem]).1⟩
